import Mathlib

/-!
Verification of the Story-Teller MVP request pipeline.

The repository is a thin HTTP orchestration layer (Express server and Vercel
serverless functions) around two external services: a generative-text service
and a text-to-speech service.  This file embeds, directly from the JavaScript
sources, the pieces of logic the specification talks about:

* `sanitizeInput` — the input-sanitization chain shared by
  `src/api/generate-voice.js`, `src/unnamed/part_001`, `src/unnamed/part_003`
  and `src/unnamed/part_004` (identical text in all four files);
* the per-route request handlers (validation, CORS/method dispatch, upstream
  calls, stream draining, response shaping) of the serverless functions and
  of the Express routes;
* the stream-accumulation logic that turns the text-to-speech byte stream
  into one contiguous buffer.

Strings are modelled as `List Char` (JavaScript strings are sequences of
code units; every string the handlers manipulate is treated as its character
sequence).  External services are modelled as oracle values passed to the
handlers: the handler's decision logic on those outcomes is translated from
the source, the services themselves are opaque collaborators.
-/

set_option maxRecDepth 10000

abbrev Str := List Char

/-- Character list of a Lean string literal. -/
def strL (s : String) : Str := s.data

/-- The whitespace class of JavaScript regular expressions (`\s`) and of
`String.prototype.trim`: tab, LF, VT, FF, CR, space, NBSP, and the Unicode
space separators plus line/paragraph separators and BOM. -/
def isJsWs (c : Char) : Bool :=
  decide (c.toNat = 9 ∨ c.toNat = 10 ∨ c.toNat = 11 ∨ c.toNat = 12 ∨ c.toNat = 13 ∨
    c.toNat = 32 ∨ c.toNat = 160 ∨ c.toNat = 0x1680 ∨
    (0x2000 ≤ c.toNat ∧ c.toNat ≤ 0x200a) ∨ c.toNat = 0x2028 ∨ c.toNat = 0x2029 ∨
    c.toNat = 0x202f ∨ c.toNat = 0x205f ∨ c.toNat = 0x3000 ∨ c.toNat = 0xfeff)

/-- The word-character class of JavaScript regular expressions (`\w`):
`[A-Za-z0-9_]`. -/
def isWordChar (c : Char) : Bool :=
  decide ((48 ≤ c.toNat ∧ c.toNat ≤ 57) ∨ (65 ≤ c.toNat ∧ c.toNat ≤ 90) ∨
    (97 ≤ c.toNat ∧ c.toNat ≤ 122) ∨ c.toNat = 95)

/-- The characters removed by the first `replace` of `sanitizeInput`:
less-than, greater-than, double quote, single quote, backtick. -/
def isSpecialChar (c : Char) : Bool :=
  decide (c.toNat = 60 ∨ c.toNat = 62 ∨ c.toNat = 34 ∨ c.toNat = 39 ∨ c.toNat = 96)

/-- ASCII lower-casing, the canonicalisation a case-insensitive (`i`-flag,
non-unicode) JavaScript regex applies to ASCII letters. -/
def toLowerAscii (c : Char) : Char :=
  if 65 ≤ c.toNat ∧ c.toNat ≤ 90 then Char.ofNat (c.toNat + 32) else c

/-- `isCIPrefix p l` holds when the lowercase pattern `p` matches the start
of `l` case-insensitively. -/
def isCIPrefix : Str → Str → Bool
  | [], _ => true
  | _ :: _, [] => false
  | p :: ps, c :: cs => (toLowerAscii c == p) && isCIPrefix ps cs

/-- Does `/javascript:/i` match at the head of `l`? -/
def matchesJSAt (l : Str) : Bool := isCIPrefix (strL "javascript:") l

/-- One left-to-right pass of `.replace(/javascript:/gi, '')`: on a match the
scan resumes after the 11 matched characters (a removal is never rescanned).
Fuel-indexed so the kernel can evaluate it; `removeJS` supplies enough fuel. -/
def removeJSAux : Nat → Str → Str
  | 0, _ => []
  | _ + 1, [] => []
  | f + 1, c :: cs =>
    if matchesJSAt (c :: cs) then removeJSAux f (cs.drop 10)
    else c :: removeJSAux f cs

def removeJS (l : Str) : Str := removeJSAux l.length l

/-- Length of the match of `/on\w+\s*=/i` at the head of `l`, if any.
The regex engine's greedy matching degenerates here to: maximal word run
(nonempty) after `on`, then maximal whitespace run, then `=` — no shorter
run can succeed because a word character matches neither `\s` nor `=`. -/
def onMatchLen (l : Str) : Option Nat :=
  match l with
  | a :: b :: rest =>
    if toLowerAscii a == 'o' && toLowerAscii b == 'n' then
      let k := (rest.takeWhile isWordChar).length
      if k = 0 then none
      else
        let rest2 := rest.drop k
        let m := (rest2.takeWhile isJsWs).length
        match rest2.drop m with
        | d :: _ => if d == '=' then some (2 + k + m + 1) else none
        | [] => none
    else none
  | _ => none

/-- One left-to-right pass of `.replace(/on\w+\s*=/gi, '')`. -/
def removeOnAux : Nat → Str → Str
  | 0, _ => []
  | _ + 1, [] => []
  | f + 1, c :: cs =>
    match onMatchLen (c :: cs) with
    | some n => removeOnAux f (cs.drop (n - 1))
    | none => c :: removeOnAux f cs

def removeOn (l : Str) : Str := removeOnAux l.length l

/-- `.replace(/[\r\n]/g, ' ')`. -/
def mapNewlines (l : Str) : Str :=
  l.map (fun c => if c.toNat = 13 ∨ c.toNat = 10 then ' ' else c)

/-- `.replace(/\s+/g, ' ')`: each maximal whitespace run becomes one space.
The boolean records whether the previous character was inside a run. -/
def collapseGo : Bool → Str → Str
  | _, [] => []
  | prevWs, c :: cs =>
    if isJsWs c then
      if prevWs then collapseGo true cs else ' ' :: collapseGo true cs
    else c :: collapseGo false cs

def collapseWs (l : Str) : Str := collapseGo false l

/-- `String.prototype.trim`. -/
def jsTrim (l : Str) : Str :=
  ((l.dropWhile isJsWs).reverse.dropWhile isJsWs).reverse

/-- `.replace(/[<>\"'`]/g, '')`. -/
def filterSpecial (l : Str) : Str := l.filter (fun c => !isSpecialChar c)

/-- The full transformation chain of `sanitizeInput` on a string input
(`src/api/generate-voice.js` lines 14–21 and its identical copies). -/
def sanitizePipeline (s : Str) : Str :=
  (jsTrim (collapseWs (mapNewlines (removeOn (removeJS (filterSpecial s)))))).take 2000

/-- The JavaScript value handed to `sanitizeInput`: absent (`undefined` /
`null`), a non-string value, or a string. -/
inductive JsVal
  | undef
  | nonString
  | str (s : Str)

/-- `sanitizeInput` — `if (!input || typeof input !== 'string') return '';`
followed by the replace chain.  A present empty string is falsy in
JavaScript, hence the extra emptiness branch. -/
def sanitizeInput : JsVal → Str
  | .undef => []
  | .nonString => []
  | .str s => if s = [] then [] else sanitizePipeline s

example : sanitizeInput (.str (strL " a   b\n c ")) = strL "a b c" := by decide

example : sanitizeInput (.str (strL "<script>alert('x')</script>")) =
    strL "scriptalert(x)/script" := by decide

example : sanitizeInput (.str (strL "say JavaScript:alert now")) = strL "say alert now" := by
  decide

example : sanitizeInput (.str (strL "a onclick = b")) = strL "a b" := by decide

/-! ### Scanning predicates and unfolding equations -/

/-- No position of `l` starts a `/javascript:/i` match. -/
def noJSAt : Str → Bool
  | [] => true
  | c :: cs => !matchesJSAt (c :: cs) && noJSAt cs

/-- No position of `l` starts an `/on\w+\s*=/i` match. -/
def noOnAt : Str → Bool
  | [] => true
  | c :: cs => (onMatchLen (c :: cs)).isNone && noOnAt cs

/-- No two adjacent whitespace characters. -/
def noAdjWs : Str → Bool
  | [] => true
  | [_] => true
  | a :: b :: rest => !(isJsWs a && isJsWs b) && noAdjWs (b :: rest)

theorem removeJSAux_congr : ∀ f g (l : Str), l.length ≤ f → l.length ≤ g →
    removeJSAux f l = removeJSAux g l := by
  intro f
  induction f with
  | zero =>
    intro g l hf _
    have : l = [] := List.length_eq_zero.mp (Nat.le_antisymm hf (Nat.zero_le _))
    subst this
    cases g <;> rfl
  | succ f ih =>
    intro g l hf hg
    cases l with
    | nil => cases g <;> rfl
    | cons c cs =>
      cases g with
      | zero => exact absurd hg (by simp)
      | succ g1 =>
        have hcs_f : cs.length ≤ f := Nat.le_of_succ_le_succ hf
        have hcs_g : cs.length ≤ g1 := Nat.le_of_succ_le_succ hg
        have hd_f : (cs.drop 10).length ≤ f :=
          Nat.le_trans (by simp [List.length_drop]) hcs_f
        have hd_g : (cs.drop 10).length ≤ g1 :=
          Nat.le_trans (by simp [List.length_drop]) hcs_g
        simp only [removeJSAux]
        by_cases h : matchesJSAt (c :: cs) = true
        · simp [h, ih g1 (cs.drop 10) hd_f hd_g]
        · simp [h, ih g1 cs hcs_f hcs_g]

theorem removeJS_cons_match {c : Char} {cs : Str} (h : matchesJSAt (c :: cs) = true) :
    removeJS (c :: cs) = removeJS (cs.drop 10) := by
  show removeJSAux (c :: cs).length (c :: cs) = _
  simp only [List.length_cons, removeJSAux, h, if_true]
  exact removeJSAux_congr cs.length (cs.drop 10).length (cs.drop 10)
    (by simp [List.length_drop]) (Nat.le_refl _)

theorem removeJS_cons_nomatch {c : Char} {cs : Str} (h : matchesJSAt (c :: cs) = false) :
    removeJS (c :: cs) = c :: removeJS cs := by
  show removeJSAux (c :: cs).length (c :: cs) = _
  simp only [List.length_cons, removeJSAux, h]
  simp only [Bool.false_eq_true, if_false, List.cons.injEq, true_and]
  exact removeJSAux_congr cs.length cs.length cs (Nat.le_refl _) (Nat.le_refl _)

theorem removeOnAux_congr : ∀ f g (l : Str), l.length ≤ f → l.length ≤ g →
    removeOnAux f l = removeOnAux g l := by
  intro f
  induction f with
  | zero =>
    intro g l hf _
    have : l = [] := List.length_eq_zero.mp (Nat.le_antisymm hf (Nat.zero_le _))
    subst this
    cases g <;> rfl
  | succ f ih =>
    intro g l hf hg
    cases l with
    | nil => cases g <;> rfl
    | cons c cs =>
      cases g with
      | zero => exact absurd hg (by simp)
      | succ g1 =>
        have hcs_f : cs.length ≤ f := Nat.le_of_succ_le_succ hf
        have hcs_g : cs.length ≤ g1 := Nat.le_of_succ_le_succ hg
        simp only [removeOnAux]
        cases h : onMatchLen (c :: cs) with
        | some n =>
          have hd_f : (cs.drop (n - 1)).length ≤ f :=
            Nat.le_trans (by simp [List.length_drop]) hcs_f
          have hd_g : (cs.drop (n - 1)).length ≤ g1 :=
            Nat.le_trans (by simp [List.length_drop]) hcs_g
          exact ih g1 (cs.drop (n - 1)) hd_f hd_g
        | none => simp [ih g1 cs hcs_f hcs_g]

theorem removeOn_cons_match {c : Char} {cs : Str} {n : Nat}
    (h : onMatchLen (c :: cs) = some n) :
    removeOn (c :: cs) = removeOn (cs.drop (n - 1)) := by
  show removeOnAux (c :: cs).length (c :: cs) = _
  simp only [List.length_cons, removeOnAux, h]
  exact removeOnAux_congr cs.length (cs.drop (n - 1)).length (cs.drop (n - 1))
    (by simp [List.length_drop]) (Nat.le_refl _)

theorem removeOn_cons_nomatch {c : Char} {cs : Str} (h : onMatchLen (c :: cs) = none) :
    removeOn (c :: cs) = c :: removeOn cs := by
  show removeOnAux (c :: cs).length (c :: cs) = _
  simp only [List.length_cons, removeOnAux, h]
  simp only [List.cons.injEq, true_and]
  exact removeOnAux_congr cs.length cs.length cs (Nat.le_refl _) (Nat.le_refl _)

/-! ### Identity of each stage on already-clean text -/

theorem filterSpecial_eq_self {l : Str} (h : ∀ c ∈ l, isSpecialChar c = false) :
    filterSpecial l = l := by
  apply List.filter_eq_self.mpr
  intro c hc
  simp [h c hc]

theorem removeJS_eq_self {l : Str} (h : noJSAt l = true) : removeJS l = l := by
  induction l with
  | nil => rfl
  | cons c cs ih =>
    simp only [noJSAt, Bool.and_eq_true, Bool.not_eq_true'] at h
    rw [removeJS_cons_nomatch h.1, ih h.2]

theorem removeOn_eq_self {l : Str} (h : noOnAt l = true) : removeOn l = l := by
  induction l with
  | nil => rfl
  | cons c cs ih =>
    simp only [noOnAt, Bool.and_eq_true, Option.isNone_iff_eq_none] at h
    rw [removeOn_cons_nomatch h.1, ih h.2]

theorem mapNewlines_eq_self {l : Str} (h : ∀ c ∈ l, c.toNat ≠ 13 ∧ c.toNat ≠ 10) :
    mapNewlines l = l := by
  unfold mapNewlines
  induction l with
  | nil => rfl
  | cons c cs ih =>
    have hc := h c (List.mem_cons_self c cs)
    simp only [List.map_cons]
    rw [if_neg (by omega), ih (fun x hx => h x (List.mem_cons_of_mem c hx))]

/-! ### Whitespace normalisation `wsToSp` and character-level facts

`collapseWs` on text without adjacent whitespace is exactly the pointwise
map sending every whitespace character to a plain space; these lemmas let
the idempotence argument for the sanitizer go through. -/

def wsG (c : Char) : Char := if isJsWs c then ' ' else c

def wsToSp (l : Str) : Str := l.map wsG

theorem isJsWs_space : isJsWs ' ' = true := by decide

theorem wsG_idem (c : Char) : wsG (wsG c) = wsG c := by
  unfold wsG
  by_cases h : isJsWs c = true
  · simp [h, isJsWs_space]
  · simp [h]

theorem isJsWs_wsG (c : Char) : isJsWs (wsG c) = isJsWs c := by
  unfold wsG
  by_cases h : isJsWs c = true
  · simp [h, isJsWs_space]
  · simp [h]

theorem toLowerAscii_of_ws {c : Char} (h : isJsWs c = true) : toLowerAscii c = c := by
  simp only [isJsWs, decide_eq_true_eq] at h
  unfold toLowerAscii
  rw [if_neg (by omega)]

theorem isWordChar_of_ws {c : Char} (h : isJsWs c = true) : isWordChar c = false := by
  simp only [isJsWs, decide_eq_true_eq] at h
  simp only [isWordChar, decide_eq_false_iff_not]
  omega

theorem isSpecialChar_of_ws {c : Char} (h : isJsWs c = true) : isSpecialChar c = false := by
  simp only [isJsWs, decide_eq_true_eq] at h
  simp only [isSpecialChar, decide_eq_false_iff_not]
  omega

theorem ne_of_ws_of_not_ws {c d : Char} (hc : isJsWs c = true) (hd : isJsWs d = false) :
    c ≠ d := by
  intro h
  rw [h, hd] at hc
  exact Bool.false_ne_true hc

theorem toLowerAscii_wsG {x : Char} (hx : isJsWs x = false) (c : Char) :
    (toLowerAscii (wsG c) == x) = (toLowerAscii c == x) := by
  by_cases h : isJsWs c = true
  · have h1 : wsG c = ' ' := by simp [wsG, h]
    have h2 : toLowerAscii ' ' = ' ' := toLowerAscii_of_ws isJsWs_space
    have h3 : (' ' : Char) ≠ x := ne_of_ws_of_not_ws isJsWs_space hx
    have h4 : toLowerAscii c = c := toLowerAscii_of_ws h
    have h5 : c ≠ x := ne_of_ws_of_not_ws h hx
    rw [h1, h2, h4]
    simp [h3, h5]
  · simp [wsG, h]

theorem isWordChar_wsG (c : Char) : isWordChar (wsG c) = isWordChar c := by
  by_cases h : isJsWs c = true
  · have : wsG c = ' ' := by simp [wsG, h]
    rw [this, isWordChar_of_ws h]
    decide
  · simp [wsG, h]

theorem eqSign_wsG (c : Char) : (wsG c == '=') = (c == '=') := by
  by_cases h : isJsWs c = true
  · have h1 : wsG c = ' ' := by simp [wsG, h]
    have h2 : c ≠ '=' := ne_of_ws_of_not_ws h (by decide)
    rw [h1]
    simp [h2]
  · simp [wsG, h]

theorem isSpecialChar_wsG (c : Char) : isSpecialChar (wsG c) = isSpecialChar c := by
  by_cases h : isJsWs c = true
  · have h1 : wsG c = ' ' := by simp [wsG, h]
    rw [h1, isSpecialChar_of_ws h]
    decide
  · simp [wsG, h]

theorem wsG_not_crlf (c : Char) (h : c.toNat ≠ 13 ∧ c.toNat ≠ 10) :
    (wsG c).toNat ≠ 13 ∧ (wsG c).toNat ≠ 10 := by
  by_cases hw : isJsWs c = true
  · have : wsG c = ' ' := by simp [wsG, hw]
    rw [this]
    decide
  · simpa [wsG, hw] using h

theorem isCIPrefix_wsToSp : ∀ (p l : Str), (∀ x ∈ p, isJsWs x = false) →
    isCIPrefix p (wsToSp l) = isCIPrefix p l := by
  intro p
  induction p with
  | nil => intro l _; rfl
  | cons x ps ih =>
    intro l hp
    cases l with
    | nil => rfl
    | cons c cs =>
      have hx : isJsWs x = false := hp x (List.mem_cons_self x ps)
      have hps : ∀ y ∈ ps, isJsWs y = false := fun y hy => hp y (List.mem_cons_of_mem x hy)
      simp only [wsToSp, List.map_cons, isCIPrefix]
      rw [toLowerAscii_wsG hx c]
      have := ih cs hps
      simp only [wsToSp] at this
      rw [this]

theorem matchesJSAt_wsToSp (l : Str) : matchesJSAt (wsToSp l) = matchesJSAt l :=
  isCIPrefix_wsToSp (strL "javascript:") l (by decide)

theorem takeWhile_wsToSp_word (l : Str) :
    (wsToSp l).takeWhile isWordChar = wsToSp (l.takeWhile isWordChar) := by
  unfold wsToSp
  rw [List.takeWhile_map]
  have : (isWordChar ∘ wsG) = isWordChar := funext isWordChar_wsG
  rw [this]

theorem takeWhile_wsToSp_ws (l : Str) :
    (wsToSp l).takeWhile isJsWs = wsToSp (l.takeWhile isJsWs) := by
  unfold wsToSp
  rw [List.takeWhile_map]
  have : (isJsWs ∘ wsG) = isJsWs := funext isJsWs_wsG
  rw [this]

theorem drop_wsToSp (l : Str) (n : Nat) : (wsToSp l).drop n = wsToSp (l.drop n) :=
  (List.map_drop ..).symm

theorem onMatchLen_wsToSp (l : Str) : onMatchLen (wsToSp l) = onMatchLen l := by
  cases l with
  | nil => rfl
  | cons a l1 =>
    cases l1 with
    | nil => rfl
    | cons b rest =>
      show onMatchLen (wsG a :: wsG b :: wsToSp rest) = onMatchLen (a :: b :: rest)
      simp only [onMatchLen]
      rw [toLowerAscii_wsG (x := 'o') (by decide) a, toLowerAscii_wsG (x := 'n') (by decide) b]
      by_cases hab : (toLowerAscii a == 'o' && toLowerAscii b == 'n') = true
      · simp only [hab, if_true]
        rw [takeWhile_wsToSp_word rest]
        simp only [wsToSp, List.length_map]
        by_cases hk : (rest.takeWhile isWordChar).length = 0
        · simp [hk]
        · simp only [hk, if_false]
          rw [← wsToSp, drop_wsToSp rest]
          rw [takeWhile_wsToSp_ws (rest.drop (rest.takeWhile isWordChar).length)]
          simp only [wsToSp, List.length_map]
          rw [← wsToSp, drop_wsToSp]
          cases hdrop : (rest.drop (rest.takeWhile isWordChar).length).drop
              ((rest.drop (rest.takeWhile isWordChar).length).takeWhile isJsWs).length with
          | nil => simp [wsToSp, hdrop]
          | cons d t =>
            simp only [wsToSp, hdrop, List.map_cons]
            rw [eqSign_wsG d]
      · simp [hab]

theorem noJSAt_wsToSp (l : Str) : noJSAt (wsToSp l) = noJSAt l := by
  induction l with
  | nil => rfl
  | cons c cs ih =>
    show noJSAt (wsG c :: wsToSp cs) = noJSAt (c :: cs)
    simp only [noJSAt]
    have h1 : matchesJSAt (wsG c :: wsToSp cs) = matchesJSAt (c :: cs) := by
      have := matchesJSAt_wsToSp (c :: cs)
      simpa [wsToSp] using this
    rw [h1, ih]

theorem noOnAt_wsToSp (l : Str) : noOnAt (wsToSp l) = noOnAt l := by
  induction l with
  | nil => rfl
  | cons c cs ih =>
    show noOnAt (wsG c :: wsToSp cs) = noOnAt (c :: cs)
    simp only [noOnAt]
    have h1 : onMatchLen (wsG c :: wsToSp cs) = onMatchLen (c :: cs) := by
      have := onMatchLen_wsToSp (c :: cs)
      simpa [wsToSp] using this
    rw [h1, ih]

theorem noAdjWs_wsToSp (l : Str) : noAdjWs (wsToSp l) = noAdjWs l := by
  induction l with
  | nil => rfl
  | cons a l1 ih =>
    cases l1 with
    | nil => rfl
    | cons b rest =>
      show noAdjWs (wsG a :: wsG b :: wsToSp rest) = noAdjWs (a :: b :: rest)
      simp only [noAdjWs]
      rw [isJsWs_wsG a, isJsWs_wsG b]
      have : noAdjWs (wsG b :: wsToSp rest) = noAdjWs (b :: rest) := by
        simpa [wsToSp] using ih
      rw [this]

/-! ### `collapseWs` and `jsTrim` on already-normalised text -/

theorem noAdjWs_cons_elim {c : Char} {cs : Str} (h : noAdjWs (c :: cs) = true) :
    noAdjWs cs = true ∧ (isJsWs c = true → cs.head?.any isJsWs = false) := by
  cases cs with
  | nil => exact ⟨rfl, fun _ => rfl⟩
  | cons b rest =>
    simp only [noAdjWs, Bool.and_eq_true, Bool.not_eq_true', Bool.and_eq_false_iff] at h
    refine ⟨h.2, fun hc => ?_⟩
    simp only [List.head?_cons, Option.any_some]
    rcases h.1 with h1 | h1
    · rw [hc] at h1; exact absurd h1 (by simp)
    · exact h1

theorem collapseGo_of_noAdjWs : ∀ l : Str, noAdjWs l = true →
    collapseGo false l = wsToSp l ∧
      (l.head?.any isJsWs = false → collapseGo true l = wsToSp l) := by
  intro l
  induction l with
  | nil => exact fun _ => ⟨rfl, fun _ => rfl⟩
  | cons c cs ih =>
    intro h
    obtain ⟨hcs, hpair⟩ := noAdjWs_cons_elim h
    obtain ⟨ih1, ih2⟩ := ih hcs
    by_cases hw : isJsWs c = true
    · have hhead : cs.head?.any isJsWs = false := hpair hw
      have hG : wsG c = ' ' := by simp [wsG, hw]
      constructor
      · show collapseGo false (c :: cs) = wsG c :: wsToSp cs
        simp only [collapseGo]
        rw [if_pos hw, if_neg (by decide : ¬((false : Bool) = true)), hG, ih2 hhead]
      · intro hcontra
        simp [hw] at hcontra
    · have hG : wsG c = c := by simp [wsG, hw]
      constructor
      · show collapseGo false (c :: cs) = wsG c :: wsToSp cs
        simp only [collapseGo]
        rw [if_neg hw, hG, ih1]
      · intro _
        show collapseGo true (c :: cs) = wsG c :: wsToSp cs
        simp only [collapseGo]
        rw [if_neg hw, hG, ih1]

theorem collapseWs_of_noAdjWs {l : Str} (h : noAdjWs l = true) : collapseWs l = wsToSp l :=
  (collapseGo_of_noAdjWs l h).1

theorem dropWhile_eq_self_of_head {p : Char → Bool} {l : Str}
    (h : l.head?.any p = false) : l.dropWhile p = l := by
  cases l with
  | nil => rfl
  | cons c cs =>
    simp only [List.head?_cons, Option.any_some] at h
    simp [List.dropWhile, h]

theorem jsTrim_eq_self {l : Str} (h1 : l.head?.any isJsWs = false)
    (h2 : l.reverse.head?.any isJsWs = false) : jsTrim l = l := by
  unfold jsTrim
  rw [dropWhile_eq_self_of_head h1, dropWhile_eq_self_of_head h2, List.reverse_reverse]

/-! ### The claim-C7 cleanliness predicate and sanitizer idempotence -/

/-- An "already-clean ASCII string with no special characters" in the sense
of the specification: ASCII, none of the five removed characters, no
case-insensitive `javascript:` occurrence, no `on<word>=` pattern, no line
breaks, no repeated and no leading/trailing whitespace, and within the
2000-character limit. -/
def CleanStr (l : Str) : Bool :=
  l.all (fun c => decide (c.toNat < 128)) &&
  l.all (fun c => !isSpecialChar c) &&
  noJSAt l && noOnAt l &&
  l.all (fun c => decide (c.toNat ≠ 13 ∧ c.toNat ≠ 10)) &&
  noAdjWs l &&
  !(l.head?.any isJsWs) && !(l.reverse.head?.any isJsWs) &&
  decide (l.length ≤ 2000)

theorem head_any_wsToSp (l : Str) : (wsToSp l).head?.any isJsWs = l.head?.any isJsWs := by
  cases l with
  | nil => rfl
  | cons c cs =>
    show ((wsG c :: wsToSp cs).head?.any isJsWs) = _
    simp [isJsWs_wsG c]

theorem rev_head_any_wsToSp (l : Str) :
    (wsToSp l).reverse.head?.any isJsWs = l.reverse.head?.any isJsWs := by
  unfold wsToSp
  rw [← List.map_reverse]
  exact head_any_wsToSp l.reverse

/-- On text satisfying the stage-identity preconditions, the sanitizer chain
reduces to the pointwise whitespace normalisation `wsToSp`. -/
theorem sanitizePipeline_reduces {l : Str}
    (hsp : ∀ c ∈ l, isSpecialChar c = false)
    (hjs : noJSAt l = true) (hon : noOnAt l = true)
    (hnl : ∀ c ∈ l, c.toNat ≠ 13 ∧ c.toNat ≠ 10)
    (hadj : noAdjWs l = true)
    (hhd : l.head?.any isJsWs = false) (htl : l.reverse.head?.any isJsWs = false)
    (hlen : l.length ≤ 2000) :
    sanitizePipeline l = wsToSp l := by
  unfold sanitizePipeline
  rw [filterSpecial_eq_self hsp, removeJS_eq_self hjs, removeOn_eq_self hon,
    mapNewlines_eq_self hnl, collapseWs_of_noAdjWs hadj,
    jsTrim_eq_self (by rw [head_any_wsToSp]; exact hhd)
      (by rw [rev_head_any_wsToSp]; exact htl),
    List.take_of_length_le (by rw [wsToSp, List.length_map]; exact hlen)]

theorem wsToSp_wsToSp (l : Str) : wsToSp (wsToSp l) = wsToSp l := by
  unfold wsToSp
  rw [List.map_map]
  have : (wsG ∘ wsG) = wsG := funext wsG_idem
  rw [this]

/-- `wsToSp l` again satisfies every stage-identity precondition. -/
theorem sanitizePipeline_wsToSp {l : Str}
    (hsp : ∀ c ∈ l, isSpecialChar c = false)
    (hjs : noJSAt l = true) (hon : noOnAt l = true)
    (hadj : noAdjWs l = true)
    (hhd : l.head?.any isJsWs = false) (htl : l.reverse.head?.any isJsWs = false)
    (hlen : l.length ≤ 2000) :
    sanitizePipeline (wsToSp l) = wsToSp l := by
  have h1 : ∀ c ∈ wsToSp l, isSpecialChar c = false := by
    intro c hc
    obtain ⟨a, ha, rfl⟩ := List.mem_map.mp hc
    rw [isSpecialChar_wsG]
    exact hsp a ha
  have h2 : noJSAt (wsToSp l) = true := by rw [noJSAt_wsToSp]; exact hjs
  have h3 : noOnAt (wsToSp l) = true := by rw [noOnAt_wsToSp]; exact hon
  have h4 : ∀ c ∈ wsToSp l, c.toNat ≠ 13 ∧ c.toNat ≠ 10 := by
    intro c hc
    obtain ⟨a, ha, rfl⟩ := List.mem_map.mp hc
    by_cases hw : isJsWs a = true
    · have : wsG a = ' ' := by simp [wsG, hw]
      rw [this]; decide
    · have : wsG a = a := by simp [wsG, hw]
      rw [this]
      constructor
      · intro h13
        exact hw (by simp [isJsWs, h13])
      · intro h10
        exact hw (by simp [isJsWs, h10])
  have h5 : noAdjWs (wsToSp l) = true := by rw [noAdjWs_wsToSp]; exact hadj
  have h6 : (wsToSp l).head?.any isJsWs = false := by rw [head_any_wsToSp]; exact hhd
  have h7 : (wsToSp l).reverse.head?.any isJsWs = false := by
    rw [rev_head_any_wsToSp]; exact htl
  have h8 : (wsToSp l).length ≤ 2000 := by rw [wsToSp, List.length_map]; exact hlen
  rw [sanitizePipeline_reduces h1 h2 h3 h4 h5 h6 h7 h8, wsToSp_wsToSp]

theorem sanitizeInput_idem_of_clean {l : Str} (h : CleanStr l = true) :
    sanitizeInput (.str (sanitizeInput (.str l))) = sanitizeInput (.str l) := by
  simp only [CleanStr, Bool.and_eq_true] at h
  obtain ⟨⟨⟨⟨⟨⟨⟨⟨_, hsp0⟩, hjs⟩, hon⟩, hnl0⟩, hadj⟩, hhd0⟩, htl0⟩, hlen0⟩ := h
  have hsp : ∀ c ∈ l, isSpecialChar c = false := by
    intro c hc
    have := List.all_eq_true.mp hsp0 c hc
    simpa using this
  have hnl : ∀ c ∈ l, c.toNat ≠ 13 ∧ c.toNat ≠ 10 := by
    intro c hc
    have := List.all_eq_true.mp hnl0 c hc
    simpa using this
  have hhd : l.head?.any isJsWs = false := by simpa using hhd0
  have htl : l.reverse.head?.any isJsWs = false := by simpa using htl0
  have hlen : l.length ≤ 2000 := by simpa using hlen0
  by_cases hemp : l = []
  · subst hemp
    simp [sanitizeInput]
  · have hred : sanitizePipeline l = wsToSp l :=
      sanitizePipeline_reduces hsp hjs hon hnl hadj hhd htl hlen
    have hout : sanitizeInput (.str l) = wsToSp l := by
      simp only [sanitizeInput, if_neg hemp, hred]
    rw [hout]
    have hne : wsToSp l ≠ [] := by
      intro hcontra
      exact hemp (List.map_eq_nil_iff.mp hcontra)
    simp only [sanitizeInput, if_neg hne]
    exact sanitizePipeline_wsToSp hsp hjs hon hadj hhd htl hlen

/-! ### The sanitizer never returns leading whitespace -/

theorem dropWhile_head_false {p : Char → Bool} : ∀ {l : Str} {c : Char} {t : Str},
    l.dropWhile p = c :: t → p c = false := by
  intro l
  induction l with
  | nil => intro c t h; exact absurd h (by simp [List.dropWhile])
  | cons a as ih =>
    intro c t h
    by_cases hp : p a = true
    · rw [List.dropWhile_cons_of_pos hp] at h
      exact ih h
    · rw [List.dropWhile_cons_of_neg hp] at h
      cases h
      exact Bool.not_eq_true _ ▸ (by simpa using hp)

theorem exists_append_dropWhile (p : Char → Bool) : ∀ l : Str, ∃ s, l = s ++ l.dropWhile p := by
  intro l
  induction l with
  | nil => exact ⟨[], rfl⟩
  | cons a as ih =>
    by_cases hp : p a = true
    · obtain ⟨s, hs⟩ := ih
      exact ⟨a :: s, by rw [List.dropWhile_cons_of_pos hp]; simpa using hs⟩
    · exact ⟨[], by rw [List.dropWhile_cons_of_neg hp]; rfl⟩

theorem jsTrim_head {l : Str} {c : Char} {rest : Str} (h : jsTrim l = c :: rest) :
    isJsWs c = false := by
  unfold jsTrim at h
  set Y := l.dropWhile isJsWs with hY
  obtain ⟨s, hs⟩ := exists_append_dropWhile isJsWs Y.reverse
  have hYdec : Y = (Y.reverse.dropWhile isJsWs).reverse ++ s.reverse := by
    calc Y = Y.reverse.reverse := (List.reverse_reverse Y).symm
    _ = (s ++ Y.reverse.dropWhile isJsWs).reverse := by rw [← hs]
    _ = (Y.reverse.dropWhile isJsWs).reverse ++ s.reverse := by rw [List.reverse_append]
  rw [h] at hYdec
  have : Y.head? = some c := by rw [hYdec]; rfl
  cases hYv : Y with
  | nil => rw [hYv] at this; exact absurd this (by simp)
  | cons y ys =>
    rw [hYv] at this
    simp only [List.head?_cons, Option.some.injEq] at this
    subst this
    exact dropWhile_head_false (hY ▸ hYv)

theorem take_head {n : Nat} : ∀ {l : Str} {c : Char} {rest : Str},
    l.take n = c :: rest → ∃ t, l = c :: t := by
  intro l c rest h
  cases l with
  | nil => simp at h
  | cons a as =>
    cases n with
    | zero => simp at h
    | succ m =>
      simp only [List.take_succ_cons, List.cons.injEq] at h
      exact ⟨as, by rw [h.1]⟩

theorem sanitizePipeline_head {s : Str} {c : Char} {rest : Str}
    (h : sanitizePipeline s = c :: rest) : isJsWs c = false := by
  unfold sanitizePipeline at h
  obtain ⟨t, ht⟩ := take_head h
  exact jsTrim_head ht

theorem sanitizeInput_no_leading_ws {s : Str} {c : Char} {rest : Str}
    (h : sanitizeInput (.str s) = c :: rest) : isJsWs c = false := by
  simp only [sanitizeInput] at h
  by_cases hemp : s = []
  · rw [if_pos hemp] at h; cases h
  · rw [if_neg hemp] at h
    exact sanitizePipeline_head h

/-! ### Handler layer: types, constants and upstream-call oracles -/

/-- Request method as the handlers inspect it (`req.method === 'OPTIONS'`,
`req.method !== 'POST'`). -/
inductive HMethod
  | post
  | options
  | other (name : Str)
  deriving DecidableEq

/-- Environment configuration the handlers read from `process.env`. -/
structure Env where
  frontendUrl : Option Str
  devMode : Bool
  voiceIdOverride : Option Str
  deriving DecidableEq

/-- JSON response bodies produced by the handlers, one constructor per shape
occurring in the sources. -/
inductive RBody
  | empty
  | errJson (msg : Str) (details : Option Str)
  | voiceJson (audioBase64 : Str) (audioMime : Str)
  | storyAudioJson (text : Str) (audioBase64 : Str) (audioMime : Str)
  | extractJson (extractedText : Str) (processedStory : Str)
  | storyJson (processedStory : Str)
  deriving DecidableEq

structure HResponse where
  status : Nat
  headers : List (Str × Str)
  body : RBody
  deriving DecidableEq

/-- One outbound call to an external service, as recorded in order by a
handler run. -/
inductive ExtCall
  | genText (model : Str) (prompt : Str)
  | genVision (model : Str) (prompt : Str) (imageData : Str) (imageMime : Str)
  | tts (voiceId : Str) (text : Str) (modelId : Str) (outputFormat : Str)
  deriving DecidableEq

/-- Outcome of one generative-text (or vision) upstream call. -/
inductive GenOutcome
  | failure (msg : Str)
  | success (text : Str)
  deriving DecidableEq

/-- Outcome of the text-to-speech upstream call: the call itself throws, or
returns no stream, or returns a stream delivering `chunks` and then either
ending normally (`readErr = none`) or erroring. -/
inductive TTSOutcome
  | callErr (msg : Str)
  | noStream
  | stream (chunks : List (List Nat)) (readErr : Option Str)
  deriving DecidableEq

def genericErrorMsg : Str := strL "An error occurred processing your request. Please try again."
def msgMethodNotAllowed : Str := strL "Method not allowed"
def msgStoryTextRequired : Str := strL "Story text is required to generate voiceover."
def msgInvalidStoryText : Str := strL "Invalid story text. Please provide valid text to generate voiceover."
def msgTextRequiredProcess : Str := strL "Text is required. Please provide text to process."
def msgInvalidInputProcess : Str := strL "Invalid input. Please provide valid text to process."
def msgTextRequiredGenerate : Str := strL "Text is required. Please provide a story idea or topic."
def msgInvalidInputGenerate : Str := strL "Invalid input. Please provide valid text."
def msgImageRequired : Str := strL "Image is required. Please upload an image."
def msgNoTextExtracted : Str := strL "No text could be extracted from the image. Please try a different image."
def msgInternalServerError : Str := strL "Internal server error"
def msgNoStream : Str := strL "No valid audio stream received from ElevenLabs"
def msgNoAudioData : Str := strL "No audio data received from ElevenLabs"
def failedGenerateAudioPre : Str := strL "Failed to generate audio: "
def failedReadStreamPre : Str := strL "Failed to read audio stream: "
def failedGenerateStoryPre : Str := strL "Failed to generate story: "

def gemini20Flash : Str := strL "gemini-2.0-flash"
def gemini15Pro : Str := strL "gemini-1.5-pro"
def defaultVoiceId : Str := strL "jUjRbhZWoMK4aDciW36V"
def elevenModelId : Str := strL "eleven_multilingual_v2"
def elevenOutputFormat : Str := strL "mp3_44100_128"
def audioMpeg : Str := strL "audio/mpeg"

/-- `process.env.ELEVENLABS_VOICE_ID || "jUjRbhZWoMK4aDciW36V"`. -/
def effectiveVoiceId (e : Env) : Str :=
  match e.voiceIdOverride with
  | some v => if v = [] then defaultVoiceId else v
  | none => defaultVoiceId

/-- The tail shared by the story prompts (the template lines after the
interpolated idea; the source lines end in a space before each newline,
and the last line contains an apostrophe). -/
def promptTail : Str :=
  strL "\". \nInclude natural dialogues between characters, proper narrative flow, and make it interesting. \nKeep it under 20 words and make it suitable for text-to-speech reading. \nDon" ++
  [Char.ofNat 39] ++
  strL "t include markdown formatting or special characters, just plain text with dialogue."

/-- The `/api/generate` and `/api/process-text` prompt template. -/
def promptIdea (t : Str) : Str :=
  strL "Write a very short, engaging story based on this idea: \"" ++ t ++ promptTail

/-- The `/api/extract-and-process` story-generation prompt template. -/
def promptImageIdea (t : Str) : Str :=
  strL "Write a very short, engaging story based on this idea extracted from an image: \"" ++
  t ++ promptTail

def visionPrompt : Str :=
  strL "Extract all text from this image. Return only the text content, nothing else."

/-! ### base64 and the data-URL massaging of `base64ToGeminiFormat` -/

def base64Alphabet : Str :=
  strL "ABCDEFGHIJKLMNOPQRSTUVWXYZabcdefghijklmnopqrstuvwxyz0123456789+/"

def b64c (n : Nat) : Char := base64Alphabet.getD n (Char.ofNat 65)

/-- `Buffer.prototype.toString("base64")` on a byte list (standard alphabet,
`=` padding). -/
def base64Encode : List Nat → Str
  | [] => []
  | [a] => [b64c (a / 4), b64c ((a % 4) * 16), '=', '=']
  | [a, b] => [b64c (a / 4), b64c ((a % 4) * 16 + b / 16), b64c ((b % 16) * 4), '=']
  | a :: b :: c :: rest =>
    b64c (a / 4) :: b64c ((a % 4) * 16 + b / 16) :: b64c ((b % 16) * 4 + c / 64) ::
      b64c (c % 64) :: base64Encode rest

/-- Strip a literal prefix, returning the remainder on success. -/
def stripLit : Str → Str → Option Str
  | [], l => some l
  | _ :: _, [] => none
  | p :: ps, c :: cs => if c = p then stripLit ps cs else none

/-- Match `^data:image\/(\w+);base64` — shared prefix of the two regexes in
`base64ToGeminiFormat`; returns the mime word and the rest after `;base64`. -/
def dataUrlMatch (s : Str) : Option (Str × Str) :=
  match stripLit (strL "data:image/") s with
  | none => none
  | some r1 =>
    let w := r1.takeWhile isWordChar
    if w = [] then none
    else
      match stripLit (strL ";base64") (r1.drop w.length) with
      | none => none
      | some r2 => some (w, r2)

structure GeminiImagePart where
  data : Str
  mimeType : Str
  deriving DecidableEq

/-- `base64ToGeminiFormat` (`src/unnamed/part_003` lines 24–34): the strip
regex additionally requires the trailing comma; the mime regex does not. -/
def base64ToGeminiFormat (s : Str) : GeminiImagePart :=
  match dataUrlMatch s with
  | some (w, r2) =>
    let dataStr :=
      match r2 with
      | c :: rest => if c = ',' then rest else s
      | [] => s
    ⟨dataStr, strL "image/" ++ w⟩
  | none => ⟨s, strL "image/png"⟩

/-! ### Stream draining (`convert` call, stream checks, chunk accumulation) -/

/-- The synthesis section of the handlers (`src/api/generate-voice.js`
lines 78–130): a thrown diagnostic on the three failure conditions, or the
concatenated buffer.  `Buffer.concat` is list flatten. -/
def drainTTS : TTSOutcome → Except Str (List Nat)
  | .callErr m => .error (failedGenerateAudioPre ++ m)
  | .noStream => .error msgNoStream
  | .stream _ (some e) => .error (failedReadStreamPre ++ e)
  | .stream chunks none =>
    if chunks.isEmpty then .error msgNoAudioData
    else .ok chunks.flatten

/-! ### CORS headers -/

def localhost5173 : Str := strL "http://localhost:5173"
def localhost3000 : Str := strL "http://localhost:3000"
def hAllowOrigin : Str := strL "Access-Control-Allow-Origin"
def hAllowCredentials : Str := strL "Access-Control-Allow-Credentials"
def hAllowMethods : Str := strL "Access-Control-Allow-Methods"
def hAllowHeaders : Str := strL "Access-Control-Allow-Headers"

/-- `[process.env.FRONTEND_URL, 'http://localhost:5173',
'http://localhost:3000'].filter(Boolean)`. -/
def secureAllowedOrigins (e : Env) : List Str :=
  ((match e.frontendUrl with | some u => [u] | none => []) ++
    [localhost5173, localhost3000]).filter (fun s => !s.isEmpty)

/-- Header block of the three origin-checking serverless handlers. -/
def secureCorsHeaders (e : Env) (origin : Option Str) : List (Str × Str) :=
  (match origin with
   | some o =>
     if o = [] then []
     else if o ∈ secureAllowedOrigins e then [(hAllowOrigin, o)] else []
   | none => []) ++
  [(hAllowCredentials, strL "true"),
   (hAllowMethods, strL "POST, OPTIONS"),
   (hAllowHeaders, strL "Content-Type")]

/-- Header block of `src/api/generate.js` (set unconditionally). -/
def openCorsHeaders : List (Str × Str) :=
  [(hAllowCredentials, strL "true"),
   (hAllowOrigin, strL "*"),
   (hAllowMethods, strL "GET,OPTIONS,PATCH,DELETE,POST,PUT"),
   (hAllowHeaders, strL "X-CSRF-Token, X-Requested-With, Accept, Accept-Version, Content-Length, Content-MD5, Content-Type, Date, X-Api-Version")]

/-! ### Route handler cores

Each core is the body of one route's `try`-block, from the field read to the
response, as a function of the request fields and the upstream-call outcomes.
It returns the ordered list of upstream calls made and the `(status, body)`
of the response.  The Express routes of `src/backend/index.js` and
`src/unnamed/part_001` consist of exactly these cores (CORS is middleware
there); the Vercel handlers wrap the same cores in the method/CORS preamble
modelled by `dispatchMethod` below. -/

/-- `const x = field?.trim() || ""` applied to a request body field that is
absent or a string. -/
def optTrim : Option Str → Str
  | none => []
  | some s => jsTrim s

/-- The catch-block of `src/api/generate.js` lines 140–148 and
`src/backend/index.js` lines 130–140: echo `err.message` (or a fallback when
it is empty) and attach `err.stack` under `details` in development mode. -/
def catchBody (dev : Bool) (msg stack : Str) : RBody :=
  .errJson (if msg = [] then msgInternalServerError else msg)
    (if dev then some stack else none)

/-- `POST /api/generate-voice` core (`src/api/generate-voice.js` lines 55–130
and `src/unnamed/part_001` lines 228–310): validate, sanitize, synthesize;
any thrown diagnostic is answered with the fixed generic 500 message. -/
def generateVoiceCore (text : Option Str) (tts : TTSOutcome) (voiceId : Str) :
    List ExtCall × Nat × RBody :=
  let storyText := optTrim text
  if storyText = [] then ([], 400, .errJson msgStoryTextRequired none)
  else
    let sanitized := sanitizeInput (.str storyText)
    if sanitized = [] then ([], 400, .errJson msgInvalidStoryText none)
    else
      let call := ExtCall.tts voiceId sanitized elevenModelId elevenOutputFormat
      match drainTTS tts with
      | .error _ => ([call], 500, .errJson genericErrorMsg none)
      | .ok buf => ([call], 200, .voiceJson (base64Encode buf) audioMpeg)

/-- `POST /api/process-text` core (`src/unnamed/part_004` lines 54–103 and
`src/unnamed/part_001` lines 166–225). -/
def processTextCore (text : Option Str) (gen : GenOutcome) : List ExtCall × Nat × RBody :=
  let inputText := optTrim text
  if inputText = [] then ([], 400, .errJson msgTextRequiredProcess none)
  else
    let sanitizedInput := sanitizeInput (.str inputText)
    if sanitizedInput = [] then ([], 400, .errJson msgInvalidInputProcess none)
    else
      let call := ExtCall.genText gemini20Flash (promptIdea sanitizedInput)
      match gen with
      | .failure _ => ([call], 500, .errJson genericErrorMsg none)
      | .success story => ([call], 200, .storyJson story)

/-- `POST /api/extract-and-process` core (`src/unnamed/part_003` lines 66–143
with extraction model `gemini-1.5-pro`; `src/unnamed/part_001` lines 83–163
is the same logic with `gemini-2.0-flash`).  The raw extracted text goes to
the response; only its sanitized copy is embedded in the story prompt. -/
def extractAndProcessCore (extractModel : Str) (image : Option Str)
    (extract gen : GenOutcome) : List ExtCall × Nat × RBody :=
  match image with
  | none => ([], 400, .errJson msgImageRequired none)
  | some img =>
    if img = [] then ([], 400, .errJson msgImageRequired none)
    else
      let part := base64ToGeminiFormat img
      let vcall := ExtCall.genVision extractModel visionPrompt part.data part.mimeType
      match extract with
      | .failure _ => ([vcall], 500, .errJson genericErrorMsg none)
      | .success extractedText =>
        if jsTrim extractedText = [] then ([vcall], 400, .errJson msgNoTextExtracted none)
        else
          let sanitizedText := sanitizeInput (.str extractedText)
          let gcall := ExtCall.genText gemini20Flash (promptImageIdea sanitizedText)
          match gen with
          | .failure _ => ([vcall, gcall], 500, .errJson genericErrorMsg none)
          | .success story => ([vcall, gcall], 200, .extractJson extractedText story)

/-- `POST /api/generate` core of `src/api/generate.js` lines 34–148 and,
line for line, of `src/backend/index.js` lines 23–141: NO sanitization —
the merely trimmed user text is embedded in the prompt — and the catch
block echoes `err.message` (with `err.stack` as `details` in development). -/
def generateNoSanitizeCore (text : Option Str) (gen : GenOutcome) (tts : TTSOutcome)
    (dev : Bool) (stack : Str) (voiceId : Str) : List ExtCall × Nat × RBody :=
  let userInput := optTrim text
  if userInput = [] then ([], 400, .errJson msgTextRequiredGenerate none)
  else
    let gcall := ExtCall.genText gemini20Flash (promptIdea userInput)
    match gen with
    | .failure m => ([gcall], 500, catchBody dev (failedGenerateStoryPre ++ m) stack)
    | .success story =>
      let tcall := ExtCall.tts voiceId story elevenModelId elevenOutputFormat
      match drainTTS tts with
      | .error d => ([gcall, tcall], 500, catchBody dev d stack)
      | .ok buf => ([gcall, tcall], 200, .storyAudioJson story (base64Encode buf) audioMpeg)

/-- `POST /api/generate` core of `src/unnamed/part_001` lines 313–441: same
as `generateNoSanitizeCore` but sanitizing the input (with an empty-sanitize
400) before composing the prompt; its catch block also echoes
`err.message`. -/
def part001GenerateCore (text : Option Str) (gen : GenOutcome) (tts : TTSOutcome)
    (dev : Bool) (stack : Str) (voiceId : Str) : List ExtCall × Nat × RBody :=
  let userInput := optTrim text
  if userInput = [] then ([], 400, .errJson msgTextRequiredGenerate none)
  else
    let sanitizedInput := sanitizeInput (.str userInput)
    if sanitizedInput = [] then ([], 400, .errJson msgInvalidInputGenerate none)
    else
      let gcall := ExtCall.genText gemini20Flash (promptIdea sanitizedInput)
      match gen with
      | .failure m => ([gcall], 500, catchBody dev (failedGenerateStoryPre ++ m) stack)
      | .success story =>
        let tcall := ExtCall.tts voiceId story elevenModelId elevenOutputFormat
        match drainTTS tts with
        | .error d => ([gcall, tcall], 500, catchBody dev d stack)
        | .ok buf => ([gcall, tcall], 200, .storyAudioJson story (base64Encode buf) audioMpeg)

/-- The serverless preamble shared (textually repeated) by all four Vercel
handlers: set the route's CORS headers, answer `OPTIONS` with a bare 200,
answer any non-POST method with 405 JSON, and otherwise run the route
core. -/
def dispatchMethod (hdrs : List (Str × Str)) (method : HMethod)
    (core : List ExtCall × Nat × RBody) : List ExtCall × HResponse :=
  match method with
  | .options => ([], ⟨200, hdrs, .empty⟩)
  | .other _ => ([], ⟨405, hdrs, .errJson msgMethodNotAllowed none⟩)
  | .post => (core.1, ⟨core.2.1, hdrs, core.2.2⟩)

/-- The `src/api/generate-voice.js` Vercel handler. -/
def generateVoiceHandler (e : Env) (origin : Option Str) (method : HMethod)
    (text : Option Str) (tts : TTSOutcome) : List ExtCall × HResponse :=
  dispatchMethod (secureCorsHeaders e origin) method
    (generateVoiceCore text tts (effectiveVoiceId e))

/-- The `src/unnamed/part_004` (`/api/process-text`) Vercel handler. -/
def processTextHandler (e : Env) (origin : Option Str) (method : HMethod)
    (text : Option Str) (gen : GenOutcome) : List ExtCall × HResponse :=
  dispatchMethod (secureCorsHeaders e origin) method (processTextCore text gen)

/-- The `src/unnamed/part_003` (`/api/extract-and-process`) Vercel handler. -/
def extractAndProcessHandler (e : Env) (origin : Option Str) (method : HMethod)
    (image : Option Str) (extract gen : GenOutcome) : List ExtCall × HResponse :=
  dispatchMethod (secureCorsHeaders e origin) method
    (extractAndProcessCore gemini15Pro image extract gen)

/-- The `src/api/generate.js` Vercel handler (open CORS block, no
sanitization, echoing catch block). -/
def generateJsHandler (e : Env) (method : HMethod) (text : Option Str)
    (gen : GenOutcome) (tts : TTSOutcome) (stack : Str) : List ExtCall × HResponse :=
  dispatchMethod openCorsHeaders method
    (generateNoSanitizeCore text gen tts e.devMode stack (effectiveVoiceId e))

/-- The Express route `POST /api/generate` of `src/backend/index.js`
(body identical to `src/api/generate.js`; method dispatch and CORS are done
by Express and the `cors` middleware outside this repository's logic). -/
def backendGenerateRoute (text : Option Str) (gen : GenOutcome) (tts : TTSOutcome)
    (dev : Bool) (stack : Str) (voiceId : Str) : List ExtCall × Nat × RBody :=
  generateNoSanitizeCore text gen tts dev stack voiceId

/-- The Express route `POST /api/extract-and-process` of
`src/unnamed/part_001` (extraction model `gemini-2.0-flash`). -/
def part001ExtractRoute (image : Option Str) (extract gen : GenOutcome) :
    List ExtCall × Nat × RBody :=
  extractAndProcessCore gemini20Flash image extract gen

def envTest : Env := ⟨none, false, none⟩

example : (generateVoiceHandler envTest none .post (some (strL "hello"))
    (.stream [] none)).2.status = 500 := by decide

example : (generateVoiceHandler envTest none .post (some (strL "  "))
    (.stream [[1]] none)).2.status = 400 := by decide

example : (processTextHandler envTest none .post (some (strL "<>"))
    (.success (strL "s"))).2.status = 400 := by decide

example : (generateJsHandler envTest .post (some (strL "hi"))
    (.failure (strL "boom")) .noStream (strL "stk")).2.body =
    .errJson (failedGenerateStoryPre ++ strL "boom") none := by decide

/-! ### Small helpers for concrete long-string witnesses -/

theorem sanitizeInput_length (v : JsVal) : (sanitizeInput v).length ≤ 2000 := by
  cases v with
  | undef => simp [sanitizeInput]
  | nonString => simp [sanitizeInput]
  | str s =>
    simp only [sanitizeInput]
    by_cases h : s = []
    · simp [h]
    · simp only [if_neg h, sanitizePipeline, List.length_take]
      exact min_le_left _ _

theorem matchesJSAt_false_of_head {c : Char} {cs : Str}
    (h : (toLowerAscii c == 'j') = false) : matchesJSAt (c :: cs) = false := by
  unfold matchesJSAt
  rw [show strL "javascript:" = 'j' :: strL "avascript:" from by decide]
  simp [isCIPrefix, h]

theorem noJSAt_of_no_j {l : Str} (h : ∀ c ∈ l, (toLowerAscii c == 'j') = false) :
    noJSAt l = true := by
  induction l with
  | nil => rfl
  | cons c cs ih =>
    simp only [noJSAt, Bool.and_eq_true, Bool.not_eq_true']
    exact ⟨matchesJSAt_false_of_head (h c (List.mem_cons_self c cs)),
      ih fun x hx => h x (List.mem_cons_of_mem c hx)⟩

theorem onMatchLen_none_of_head {a b : Char} {rest : Str}
    (h : (toLowerAscii a == 'o') = false) : onMatchLen (a :: b :: rest) = none := by
  simp [onMatchLen, h]

theorem noOnAt_of_no_o {l : Str} (h : ∀ c ∈ l, (toLowerAscii c == 'o') = false) :
    noOnAt l = true := by
  induction l with
  | nil => rfl
  | cons c cs ih =>
    simp only [noOnAt, Bool.and_eq_true]
    refine ⟨?_, ih fun x hx => h x (List.mem_cons_of_mem c hx)⟩
    cases cs with
    | nil => rfl
    | cons b r =>
      rw [onMatchLen_none_of_head (h c (List.mem_cons_self c (b :: r)))]
      rfl

theorem noAdjWs_cons {a : Char} {l : Str} (ha : isJsWs a = false)
    (hl : noAdjWs l = true) : noAdjWs (a :: l) = true := by
  cases l with
  | nil => rfl
  | cons b r => simp [noAdjWs, ha, hl]

theorem listMapSelf {f : Char → Char} : ∀ {l : Str}, (∀ c ∈ l, f c = c) → l.map f = l := by
  intro l
  induction l with
  | nil => intro _; rfl
  | cons c cs ih =>
    intro h
    simp only [List.map_cons]
    rw [h c (List.mem_cons_self c cs), ih fun x hx => h x (List.mem_cons_of_mem c hx)]

theorem flatten_length_pos {chunks : List (List Nat)} (hne : chunks ≠ [])
    (h : ∀ c ∈ chunks, c ≠ []) : 1 ≤ chunks.flatten.length := by
  cases chunks with
  | nil => exact absurd rfl hne
  | cons c0 rest =>
    have hc0 : c0 ≠ [] := h c0 (List.mem_cons_self c0 rest)
    have : 0 < c0.length := List.length_pos.mpr hc0
    simp only [List.flatten_cons, List.length_append]
    omega

/-! ### Claim theorems -/

/-- C1: `sanitizeInput` is total; absent or non-string input yields the empty
string; string input goes through, in order, special-character removal,
case-insensitive `javascript:` removal, `on<word>\s*=` removal, CR/LF
replacement, whitespace collapsing, trimming, and truncation to 2000
characters; hence every result has length at most 2000, and
`sanitize(" a   b\n c ") = "a b c"`. -/
theorem c1_sanitize_total_pipeline :
    sanitizeInput .undef = [] ∧ sanitizeInput .nonString = [] ∧
    (∀ s : Str, sanitizeInput (.str s) =
      (jsTrim (collapseWs (mapNewlines (removeOn (removeJS (filterSpecial s)))))).take 2000) ∧
    (∀ v : JsVal, (sanitizeInput v).length ≤ 2000) ∧
    sanitizeInput (.str (strL " a   b\n c ")) = strL "a b c" := by
  refine ⟨rfl, rfl, ?_, sanitizeInput_length, by decide⟩
  intro s
  by_cases h : s = []
  · subst h; rfl
  · simp only [sanitizeInput, if_neg h, sanitizePipeline]

/-- C7: on every already-clean ASCII string — no special characters, no
case-insensitive `javascript:`, no `on<word>=` pattern, no line breaks, no
repeated or edge whitespace, length within the 2000 limit — the sanitizer is
idempotent. -/
theorem c7_sanitize_idempotent_on_clean {s : Str} (h : CleanStr s = true) :
    sanitizeInput (.str (sanitizeInput (.str s))) = sanitizeInput (.str s) :=
  sanitizeInput_idem_of_clean h

theorem c7_sanitize_idempotent_witness :
    CleanStr (strL "The cat sat") = true ∧
    sanitizeInput (.str (sanitizeInput (.str (strL "The cat sat")))) =
      sanitizeInput (.str (strL "The cat sat")) :=
  ⟨by decide, c7_sanitize_idempotent_on_clean (by decide)⟩

def c9Input : Str := List.replicate 1999 'a' ++ [' ', 'b']

theorem headRepAppend {n : Nat} {a : Char} {t : Str} (h : 0 < n) :
    (List.replicate n a ++ t).head? = some a := by
  cases n with
  | zero => exact absurd h (by simp)
  | succ m => rw [List.replicate_succ, List.cons_append, List.head?_cons]

/-- C9: the sanitizer truncates only after trimming, so a cleaned input whose
character at position 1999 is a space sanitizes to a result ENDING in
whitespace; by contrast no result ever STARTS with whitespace. -/
theorem c9_truncation_after_trim :
    (sanitizeInput (.str c9Input)).getLast? = some ' ' ∧ isJsWs ' ' = true ∧
    (∀ (s : Str) (c : Char) (rest : Str),
      sanitizeInput (.str s) = c :: rest → isJsWs c = false) := by
  refine ⟨?_, by decide, fun s c rest h => sanitizeInput_no_leading_ws h⟩
  have tri : ∀ c ∈ c9Input, c = 'a' ∨ c = ' ' ∨ c = 'b' := by
    intro c hc
    rcases List.mem_append.mp hc with h | h
    · exact Or.inl (List.eq_of_mem_replicate h)
    · right; simpa using h
  have hsp : ∀ c ∈ c9Input, isSpecialChar c = false := by
    intro c hc; rcases tri c hc with rfl | rfl | rfl <;> decide
  have hj : ∀ c ∈ c9Input, (toLowerAscii c == 'j') = false := by
    intro c hc; rcases tri c hc with rfl | rfl | rfl <;> decide
  have ho : ∀ c ∈ c9Input, (toLowerAscii c == 'o') = false := by
    intro c hc; rcases tri c hc with rfl | rfl | rfl <;> decide
  have hnl : ∀ c ∈ c9Input, c.toNat ≠ 13 ∧ c.toNat ≠ 10 := by
    intro c hc; rcases tri c hc with rfl | rfl | rfl <;> decide
  have hadj : ∀ n, noAdjWs (List.replicate n 'a' ++ [' ', 'b']) = true := by
    intro n
    induction n with
    | zero => decide
    | succ k ih =>
      rw [List.replicate_succ, List.cons_append]
      exact noAdjWs_cons (by decide) ih
  have hws : wsToSp c9Input = c9Input := by
    apply listMapSelf
    intro c hc; rcases tri c hc with rfl | rfl | rfl <;> decide
  have hhd : c9Input.head?.any isJsWs = false := by
    rw [show c9Input.head? = some 'a' from headRepAppend (by norm_num)]
    decide
  have hrev : c9Input.reverse = 'b' :: ' ' :: (List.replicate 1999 'a').reverse := by
    unfold c9Input
    rw [List.reverse_append, show ([' ', 'b'] : Str).reverse = ['b', ' '] from by decide,
      List.cons_append, List.cons_append, List.nil_append]
  have htl : c9Input.reverse.head?.any isJsWs = false := by
    rw [hrev, List.head?_cons]
    decide
  have hne : c9Input ≠ [] := by
    intro hc
    have h1 : c9Input.head? = some 'a' := headRepAppend (by norm_num)
    rw [hc] at h1
    exact absurd h1 (by simp)
  have hpipe : sanitizeInput (.str c9Input) = List.replicate 1999 'a' ++ [' '] := by
    simp only [sanitizeInput, if_neg hne, sanitizePipeline]
    rw [filterSpecial_eq_self hsp, removeJS_eq_self (noJSAt_of_no_j hj),
      removeOn_eq_self (noOnAt_of_no_o ho), mapNewlines_eq_self hnl,
      collapseWs_of_noAdjWs (show noAdjWs c9Input = true from hadj 1999), hws,
      jsTrim_eq_self hhd htl]
    unfold c9Input
    rw [List.take_append_eq_append_take, List.length_replicate,
      List.take_of_length_le (by rw [List.length_replicate]; norm_num),
      show (2000 - 1999 : Nat) = 1 from by norm_num,
      show List.take 1 ([' ', 'b'] : Str) = [' '] from by decide]
  rw [hpipe]
  exact List.getLast?_concat _

theorem c9_no_leading_ws_witness :
    sanitizeInput (.str (strL "ab")) = 'a' :: strL "b" ∧ isJsWs 'a' = false :=
  ⟨by decide, c9_truncation_after_trim.2.2 (strL "ab") 'a' (strL "b") (by decide)⟩

/-- C2 counterexample: the `/api/generate` serverless handler answers an
upstream generation failure with a 500 whose `error` field is the internal
error message embedding the upstream provider's message — not a generic
message — and in development mode it puts the stack trace into the response
body (`details`). -/
theorem c2_counterexample :
    (generateJsHandler ⟨none, false, none⟩ .post (some (strL "hi"))
        (.failure (strL "quota exceeded")) .noStream (strL "Error stack")).2 =
      ⟨500, openCorsHeaders,
        .errJson (failedGenerateStoryPre ++ strL "quota exceeded") none⟩ ∧
    failedGenerateStoryPre ++ strL "quota exceeded" ≠ genericErrorMsg ∧
    failedGenerateStoryPre ++ strL "quota exceeded" ≠ msgInternalServerError ∧
    (generateJsHandler ⟨none, true, none⟩ .post (some (strL "hi"))
        (.failure (strL "quota exceeded")) .noStream (strL "Error stack")).2.body =
      .errJson (failedGenerateStoryPre ++ strL "quota exceeded")
        (some (strL "Error stack")) :=
  ⟨by decide, by decide, by decide, by decide⟩

theorem append_failedGenerateStoryPre_ne_nil (m : Str) : failedGenerateStoryPre ++ m ≠ [] := by
  rw [show failedGenerateStoryPre = 'F' :: strL "ailed to generate story: " from by decide]
  simp

/-- C2 amended: the generate-voice, process-text and extract-and-process
handlers answer every internal failure with 500 and the fixed generic
message, with no details field; the two `/api/generate` handlers
(`src/api/generate.js` and the `src/backend/index.js` route) instead echo
`err.message` — which embeds the upstream error message — and attach the
stack trace as `details` exactly when `NODE_ENV` is `development`. -/
theorem c2_amended_error_responses :
    (∀ (t : Option Str) (tts : TTSOutcome) (vid : Str),
       (generateVoiceCore t tts vid).2.1 = 500 →
       (generateVoiceCore t tts vid).2.2 = .errJson genericErrorMsg none) ∧
    (∀ (t : Option Str) (gen : GenOutcome),
       (processTextCore t gen).2.1 = 500 →
       (processTextCore t gen).2.2 = .errJson genericErrorMsg none) ∧
    (∀ (em : Str) (i : Option Str) (ex gen : GenOutcome),
       (extractAndProcessCore em i ex gen).2.1 = 500 →
       (extractAndProcessCore em i ex gen).2.2 = .errJson genericErrorMsg none) ∧
    (∀ (t : Option Str) (m : Str) (tts : TTSOutcome) (dev : Bool) (stk vid : Str),
       optTrim t ≠ [] →
       (generateNoSanitizeCore t (.failure m) tts dev stk vid).2.2 =
         .errJson (failedGenerateStoryPre ++ m) (if dev then some stk else none)) ∧
    (∀ (t : Option Str) (m : Str) (tts : TTSOutcome) (dev : Bool) (stk vid : Str),
       optTrim t ≠ [] → sanitizeInput (.str (optTrim t)) ≠ [] →
       (part001GenerateCore t (.failure m) tts dev stk vid).2.2 =
         .errJson (failedGenerateStoryPre ++ m) (if dev then some stk else none)) := by
  refine ⟨?_, ?_, ?_, ?_, ?_⟩
  · intro t tts vid h
    by_cases h1 : optTrim t = []
    · simp [generateVoiceCore, h1] at h
    · by_cases h2 : sanitizeInput (.str (optTrim t)) = []
      · simp [generateVoiceCore, h1, h2] at h
      · cases hd : drainTTS tts with
        | error d => simp [generateVoiceCore, h1, h2, hd]
        | ok buf => simp [generateVoiceCore, h1, h2, hd] at h
  · intro t gen h
    by_cases h1 : optTrim t = []
    · simp [processTextCore, h1] at h
    · by_cases h2 : sanitizeInput (.str (optTrim t)) = []
      · simp [processTextCore, h1, h2] at h
      · cases gen with
        | failure m => simp [processTextCore, h1, h2]
        | success story => simp [processTextCore, h1, h2] at h
  · intro em i ex gen h
    cases i with
    | none => simp [extractAndProcessCore] at h
    | some img =>
      by_cases h1 : img = []
      · simp [extractAndProcessCore, h1] at h
      · cases ex with
        | failure m => simp [extractAndProcessCore, h1]
        | success et =>
          by_cases h2 : jsTrim et = []
          · simp [extractAndProcessCore, h1, h2] at h
          · cases gen with
            | failure m => simp [extractAndProcessCore, h1, h2]
            | success story => simp [extractAndProcessCore, h1, h2] at h
  · intro t m tts dev stk vid h1
    simp [generateNoSanitizeCore, h1, catchBody,
      append_failedGenerateStoryPre_ne_nil m]
  · intro t m tts dev stk vid h1 h2
    simp [part001GenerateCore, h1, h2, catchBody,
      append_failedGenerateStoryPre_ne_nil m]

theorem c2_amended_witness :
    (generateVoiceCore (some (strL "hello")) (.stream [] none) defaultVoiceId).2.1 = 500 ∧
    (generateVoiceCore (some (strL "hello")) (.stream [] none) defaultVoiceId).2.2 =
      .errJson genericErrorMsg none ∧
    (generateNoSanitizeCore (some (strL "hi")) (.failure (strL "boom")) .noStream
        false (strL "stk") defaultVoiceId).2.2 =
      .errJson (failedGenerateStoryPre ++ strL "boom") none :=
  ⟨by decide,
   c2_amended_error_responses.1 (some (strL "hello")) (.stream [] none) defaultVoiceId
     (by decide),
   by
    have h := c2_amended_error_responses.2.2.2.1 (some (strL "hi")) (strL "boom")
      .noStream false (strL "stk") defaultVoiceId (by decide)
    simpa using h⟩

/-- C3 counterexample: the `/api/generate` serverless handler embeds the
merely-trimmed user text in the upstream prompt without applying the
sanitizer — on input `"a<b"` the prompt sent upstream contains `<`, although
the sanitized text would be `"ab"`. -/
theorem c3_counterexample :
    (generateJsHandler ⟨none, false, none⟩ .post (some (strL "a<b"))
        (.success (strL "st")) (.stream [[1]] none) (strL "stk")).1 =
      [ExtCall.genText gemini20Flash (promptIdea (strL "a<b")),
       ExtCall.tts defaultVoiceId (strL "st") elevenModelId elevenOutputFormat] ∧
    sanitizeInput (.str (strL "a<b")) = strL "ab" ∧
    strL "a<b" ≠ strL "ab" ∧
    '<' ∈ promptIdea (strL "a<b") :=
  ⟨by decide, by decide, by decide, by decide⟩

/-- C3 amended: the process-text, generate-voice and extract-and-process
handlers and the `src/unnamed/part_001` `/api/generate` route sanitize the
user-influenced text before it reaches an upstream call, whereas the
`src/api/generate.js` handler (and the identical `src/backend/index.js`
route, `generateNoSanitizeCore`) forwards the merely-trimmed text. -/
theorem c3_amended_sanitization_per_handler :
    (∀ (t : Option Str) (gen : GenOutcome) (mo p : Str),
       ExtCall.genText mo p ∈ (processTextCore t gen).1 →
       p = promptIdea (sanitizeInput (.str (optTrim t)))) ∧
    (∀ (t : Option Str) (gen : GenOutcome) (tts : TTSOutcome) (dev : Bool)
       (stk vid mo p : Str),
       ExtCall.genText mo p ∈ (part001GenerateCore t gen tts dev stk vid).1 →
       p = promptIdea (sanitizeInput (.str (optTrim t)))) ∧
    (∀ (t : Option Str) (tts : TTSOutcome) (vid v txt mid f : Str),
       ExtCall.tts v txt mid f ∈ (generateVoiceCore t tts vid).1 →
       txt = sanitizeInput (.str (optTrim t))) ∧
    (∀ (em : Str) (i : Option Str) (ex gen : GenOutcome) (mo p : Str),
       ExtCall.genText mo p ∈ (extractAndProcessCore em i ex gen).1 →
       ∃ et, ex = .success et ∧ p = promptImageIdea (sanitizeInput (.str et))) ∧
    (∀ (t : Option Str) (gen : GenOutcome) (tts : TTSOutcome) (dev : Bool)
       (stk vid mo p : Str),
       ExtCall.genText mo p ∈ (generateNoSanitizeCore t gen tts dev stk vid).1 →
       p = promptIdea (optTrim t)) := by
  refine ⟨?_, ?_, ?_, ?_, ?_⟩
  · intro t gen mo p hmem
    by_cases h1 : optTrim t = []
    · simp [processTextCore, h1] at hmem
    · by_cases h2 : sanitizeInput (.str (optTrim t)) = []
      · simp [processTextCore, h1, h2] at hmem
      · cases gen with
        | failure m =>
          simp [processTextCore, h1, h2] at hmem
          exact hmem.2
        | success story =>
          simp [processTextCore, h1, h2] at hmem
          exact hmem.2
  · intro t gen tts dev stk vid mo p hmem
    by_cases h1 : optTrim t = []
    · simp [part001GenerateCore, h1] at hmem
    · by_cases h2 : sanitizeInput (.str (optTrim t)) = []
      · simp [part001GenerateCore, h1, h2] at hmem
      · cases gen with
        | failure m =>
          simp [part001GenerateCore, h1, h2] at hmem
          exact hmem.2
        | success story =>
          cases hd : drainTTS tts with
          | error d =>
            simp [part001GenerateCore, h1, h2, hd] at hmem
            exact hmem.2
          | ok buf =>
            simp [part001GenerateCore, h1, h2, hd] at hmem
            exact hmem.2
  · intro t tts vid v txt mid f hmem
    by_cases h1 : optTrim t = []
    · simp [generateVoiceCore, h1] at hmem
    · by_cases h2 : sanitizeInput (.str (optTrim t)) = []
      · simp [generateVoiceCore, h1, h2] at hmem
      · cases hd : drainTTS tts with
        | error d =>
          simp [generateVoiceCore, h1, h2, hd] at hmem
          exact hmem.2.1
        | ok buf =>
          simp [generateVoiceCore, h1, h2, hd] at hmem
          exact hmem.2.1
  · intro em i ex gen mo p hmem
    cases i with
    | none => simp [extractAndProcessCore] at hmem
    | some img =>
      by_cases h1 : img = []
      · simp [extractAndProcessCore, h1] at hmem
      · cases ex with
        | failure m => simp [extractAndProcessCore, h1] at hmem
        | success et =>
          by_cases h2 : jsTrim et = []
          · simp [extractAndProcessCore, h1, h2] at hmem
          · cases gen with
            | failure m =>
              simp [extractAndProcessCore, h1, h2] at hmem
              exact ⟨et, rfl, hmem.2⟩
            | success story =>
              simp [extractAndProcessCore, h1, h2] at hmem
              exact ⟨et, rfl, hmem.2⟩
  · intro t gen tts dev stk vid mo p hmem
    by_cases h1 : optTrim t = []
    · simp [generateNoSanitizeCore, h1] at hmem
    · cases gen with
      | failure m =>
        simp [generateNoSanitizeCore, h1] at hmem
        exact hmem.2
      | success story =>
        cases hd : drainTTS tts with
        | error d =>
          simp [generateNoSanitizeCore, h1, hd] at hmem
          exact hmem.2
        | ok buf =>
          simp [generateNoSanitizeCore, h1, hd] at hmem
          exact hmem.2

theorem c3_amended_witness :
    promptIdea (strL "hi") = promptIdea (sanitizeInput (.str (optTrim (some (strL "hi"))))) :=
  c3_amended_sanitization_per_handler.1 (some (strL "hi")) (.success (strL "s"))
    gemini20Flash (promptIdea (strL "hi")) (by decide)

theorem head_failedGenerateAudioPre (m : Str) :
    (failedGenerateAudioPre ++ m).head? = some 'F' := by
  rw [show failedGenerateAudioPre = 'F' :: strL "ailed to generate audio: " from by decide]
  rfl

/-- C4: each of the three synthesis failure conditions — the upstream call
throwing, no stream being returned, the stream draining to zero bytes —
produces a distinct diagnostic and ends the request with a non-200 response;
a 200 response requires the stream to have drained to one contiguous buffer
of at least one byte. -/
theorem c4_synthesis_failure_conditions (m : Str) (chunks : List (List Nat))
    (hchunks : ∀ c ∈ chunks, c ≠ []) :
    (drainTTS (.callErr m) = .error (failedGenerateAudioPre ++ m) ∧
     drainTTS .noStream = .error msgNoStream ∧
     drainTTS (.stream [] none) = .error msgNoAudioData) ∧
    (failedGenerateAudioPre ++ m ≠ msgNoStream ∧
     failedGenerateAudioPre ++ m ≠ msgNoAudioData ∧
     msgNoStream ≠ msgNoAudioData) ∧
    (∀ (e : Env) (o t : Option Str) (fo : TTSOutcome),
       (∃ d, drainTTS fo = .error d) →
       (generateVoiceHandler e o .post t fo).2.status ≠ 200) ∧
    (∀ buf, drainTTS (.stream chunks none) = .ok buf → 1 ≤ buf.length) ∧
    (∀ (e : Env) (o t : Option Str),
       (generateVoiceHandler e o .post t (.stream chunks none)).2.status = 200 →
       ∃ buf, drainTTS (.stream chunks none) = .ok buf ∧ 1 ≤ buf.length ∧
         (generateVoiceHandler e o .post t (.stream chunks none)).2.body =
           .voiceJson (base64Encode buf) audioMpeg) := by
  have hok : ∀ buf, drainTTS (.stream chunks none) = .ok buf → 1 ≤ buf.length := by
    intro buf h
    by_cases hc : chunks.isEmpty
    · simp [drainTTS, hc] at h
    · simp only [drainTTS, if_neg hc] at h
      cases h
      exact flatten_length_pos (by simpa using hc) hchunks
  refine ⟨⟨rfl, rfl, rfl⟩, ⟨?_, ?_, by decide⟩, ?_, hok, ?_⟩
  · intro h
    have h1 := congrArg List.head? h
    rw [head_failedGenerateAudioPre, show msgNoStream.head? = some 'N' from by decide] at h1
    exact absurd h1 (by decide)
  · intro h
    have h1 := congrArg List.head? h
    rw [head_failedGenerateAudioPre,
      show msgNoAudioData.head? = some 'N' from by decide] at h1
    exact absurd h1 (by decide)
  · intro e o t fo hdn
    obtain ⟨d, hd⟩ := hdn
    by_cases h1 : optTrim t = []
    · simp [generateVoiceHandler, dispatchMethod, generateVoiceCore, h1]
    · by_cases h2 : sanitizeInput (.str (optTrim t)) = []
      · simp [generateVoiceHandler, dispatchMethod, generateVoiceCore, h1, h2]
      · simp [generateVoiceHandler, dispatchMethod, generateVoiceCore, h1, h2, hd]
  · intro e o t h200
    by_cases h1 : optTrim t = []
    · simp [generateVoiceHandler, dispatchMethod, generateVoiceCore, h1] at h200
    · by_cases h2 : sanitizeInput (.str (optTrim t)) = []
      · simp [generateVoiceHandler, dispatchMethod, generateVoiceCore, h1, h2] at h200
      · cases hd : drainTTS (.stream chunks none) with
        | error d =>
          simp [generateVoiceHandler, dispatchMethod, generateVoiceCore, h1, h2, hd] at h200
        | ok buf =>
          refine ⟨buf, rfl, hok buf hd, ?_⟩
          simp [generateVoiceHandler, dispatchMethod, generateVoiceCore, h1, h2, hd]

theorem c4_synthesis_witness :
    drainTTS .noStream = .error msgNoStream ∧
    (generateVoiceHandler envTest none .post (some (strL "hello"))
      (.stream [] none)).2.status ≠ 200 ∧
    (∀ buf, drainTTS (.stream [[7]] none) = .ok buf → 1 ≤ buf.length) :=
  have h := c4_synthesis_failure_conditions (strL "boom") [[7]] (by decide)
  have h0 := c4_synthesis_failure_conditions (strL "boom") [] (by decide)
  ⟨h.1.2.1,
   h0.2.2.1 envTest none (some (strL "hello")) (.stream [] none) ⟨msgNoAudioData, rfl⟩,
   h.2.2.2.1⟩

/-- C5: on every route a missing or blank required field is answered 400
with a route-specific message and no upstream call; on the three handlers
that sanitize the field, a non-blank input whose sanitized form is empty is
also answered 400, with a message distinct from the missing-input one, again
before any upstream call. -/
theorem c5_validation_before_external_calls :
    (∀ (e : Env) (o t : Option Str) (tts : TTSOutcome), optTrim t = [] →
       generateVoiceHandler e o .post t tts =
         ([], ⟨400, secureCorsHeaders e o, .errJson msgStoryTextRequired none⟩)) ∧
    (∀ (e : Env) (o t : Option Str) (gen : GenOutcome), optTrim t = [] →
       processTextHandler e o .post t gen =
         ([], ⟨400, secureCorsHeaders e o, .errJson msgTextRequiredProcess none⟩)) ∧
    (∀ (e : Env) (o i : Option Str) (ex gen : GenOutcome), (i = none ∨ i = some []) →
       extractAndProcessHandler e o .post i ex gen =
         ([], ⟨400, secureCorsHeaders e o, .errJson msgImageRequired none⟩)) ∧
    (∀ (e : Env) (t : Option Str) (gen : GenOutcome) (tts : TTSOutcome) (stk : Str),
       optTrim t = [] →
       generateJsHandler e .post t gen tts stk =
         ([], ⟨400, openCorsHeaders, .errJson msgTextRequiredGenerate none⟩)) ∧
    (∀ (t : Option Str) (gen : GenOutcome) (tts : TTSOutcome) (dev : Bool) (stk vid : Str),
       optTrim t = [] →
       part001GenerateCore t gen tts dev stk vid =
         ([], 400, .errJson msgTextRequiredGenerate none)) ∧
    (∀ (e : Env) (o t : Option Str) (tts : TTSOutcome),
       optTrim t ≠ [] → sanitizeInput (.str (optTrim t)) = [] →
       generateVoiceHandler e o .post t tts =
         ([], ⟨400, secureCorsHeaders e o, .errJson msgInvalidStoryText none⟩)) ∧
    (∀ (e : Env) (o t : Option Str) (gen : GenOutcome),
       optTrim t ≠ [] → sanitizeInput (.str (optTrim t)) = [] →
       processTextHandler e o .post t gen =
         ([], ⟨400, secureCorsHeaders e o, .errJson msgInvalidInputProcess none⟩)) ∧
    (∀ (t : Option Str) (gen : GenOutcome) (tts : TTSOutcome) (dev : Bool) (stk vid : Str),
       optTrim t ≠ [] → sanitizeInput (.str (optTrim t)) = [] →
       part001GenerateCore t gen tts dev stk vid =
         ([], 400, .errJson msgInvalidInputGenerate none)) ∧
    (msgStoryTextRequired ≠ msgInvalidStoryText ∧
     msgTextRequiredProcess ≠ msgInvalidInputProcess ∧
     msgTextRequiredGenerate ≠ msgInvalidInputGenerate) := by
  refine ⟨?_, ?_, ?_, ?_, ?_, ?_, ?_, ?_, by decide, by decide, by decide⟩
  · intro e o t tts h
    simp [generateVoiceHandler, dispatchMethod, generateVoiceCore, h]
  · intro e o t gen h
    simp [processTextHandler, dispatchMethod, processTextCore, h]
  · intro e o i ex gen h
    rcases h with rfl | rfl <;>
      simp [extractAndProcessHandler, dispatchMethod, extractAndProcessCore]
  · intro e t gen tts stk h
    simp [generateJsHandler, dispatchMethod, generateNoSanitizeCore, h]
  · intro t gen tts dev stk vid h
    simp [part001GenerateCore, h]
  · intro e o t tts h1 h2
    simp [generateVoiceHandler, dispatchMethod, generateVoiceCore, h1, h2]
  · intro e o t gen h1 h2
    simp [processTextHandler, dispatchMethod, processTextCore, h1, h2]
  · intro t gen tts dev stk vid h1 h2
    simp [part001GenerateCore, h1, h2]

theorem c5_validation_witness :
    generateVoiceHandler envTest none .post (some (strL "  ")) (.stream [[1]] none) =
      ([], ⟨400, secureCorsHeaders envTest none, .errJson msgStoryTextRequired none⟩) ∧
    processTextHandler envTest none .post (some (strL "<>")) (.success (strL "s")) =
      ([], ⟨400, secureCorsHeaders envTest none, .errJson msgInvalidInputProcess none⟩) :=
  ⟨c5_validation_before_external_calls.1 envTest none (some (strL "  "))
     (.stream [[1]] none) (by decide),
   c5_validation_before_external_calls.2.2.2.2.2.2.1 envTest none (some (strL "<>"))
     (.success (strL "s")) (by decide) (by decide)⟩

/-- C6: when the vision extraction succeeds but yields empty or
whitespace-only text, extract-and-process answers 400 with the user-input
message — not 500 — and never places a narrative-generation call. -/
theorem c6_empty_extraction_is_user_error (em img et : Str) (gen : GenOutcome)
    (himg : img ≠ []) (het : jsTrim et = []) :
    extractAndProcessCore em (some img) (.success et) gen =
      ([ExtCall.genVision em visionPrompt (base64ToGeminiFormat img).data
          (base64ToGeminiFormat img).mimeType],
       400, .errJson msgNoTextExtracted none) ∧
    (∀ mo p, ExtCall.genText mo p ∉ (extractAndProcessCore em (some img) (.success et) gen).1) ∧
    (extractAndProcessCore em (some img) (.success et) gen).2.1 ≠ 500 ∧
    (∀ (e : Env) (o : Option Str),
       (extractAndProcessHandler e o .post (some img) (.success et) gen).2.status = 400) := by
  have hcore : extractAndProcessCore em (some img) (.success et) gen =
      ([ExtCall.genVision em visionPrompt (base64ToGeminiFormat img).data
          (base64ToGeminiFormat img).mimeType],
       400, .errJson msgNoTextExtracted none) := by
    simp [extractAndProcessCore, himg, het]
  refine ⟨hcore, ?_, ?_, ?_⟩
  · intro mo p hmem
    rw [hcore] at hmem
    simp at hmem
  · rw [hcore]
    simp
  · intro e o
    have h : (extractAndProcessCore gemini15Pro (some img) (.success et) gen).2.1 = 400 := by
      simp [extractAndProcessCore, himg, het]
    simp [extractAndProcessHandler, dispatchMethod, h]

theorem c6_empty_extraction_witness :
    extractAndProcessCore gemini15Pro (some (strL "img")) (.success (strL "  ")) 
        (.success (strL "story")) =
      ([ExtCall.genVision gemini15Pro visionPrompt
          (base64ToGeminiFormat (strL "img")).data
          (base64ToGeminiFormat (strL "img")).mimeType],
       400, .errJson msgNoTextExtracted none) :=
  (c6_empty_extraction_is_user_error gemini15Pro (strL "img") (strL "  ")
    (.success (strL "story")) (by decide) (by decide)).1

/-- C8: on each of the four serverless routes, an `OPTIONS` request is
answered 200 with the route's CORS headers (including an allow-headers
entry) and an empty body, whatever the payload and upstream outcomes; a
request with any method other than POST and OPTIONS is answered 405 with a
JSON error object. -/
theorem c8_options_and_method_dispatch :
    (∀ (e : Env) (o t : Option Str) (tts : TTSOutcome),
       generateVoiceHandler e o .options t tts = ([], ⟨200, secureCorsHeaders e o, .empty⟩)) ∧
    (∀ (e : Env) (o t : Option Str) (gen : GenOutcome),
       processTextHandler e o .options t gen = ([], ⟨200, secureCorsHeaders e o, .empty⟩)) ∧
    (∀ (e : Env) (o i : Option Str) (ex gen : GenOutcome),
       extractAndProcessHandler e o .options i ex gen =
         ([], ⟨200, secureCorsHeaders e o, .empty⟩)) ∧
    (∀ (e : Env) (t : Option Str) (gen : GenOutcome) (tts : TTSOutcome) (stk : Str),
       generateJsHandler e .options t gen tts stk = ([], ⟨200, openCorsHeaders, .empty⟩)) ∧
    (∀ (e : Env) (o : Option Str),
       (hAllowHeaders, strL "Content-Type") ∈ secureCorsHeaders e o) ∧
    ((hAllowHeaders, strL "X-CSRF-Token, X-Requested-With, Accept, Accept-Version, Content-Length, Content-MD5, Content-Type, Date, X-Api-Version") ∈ openCorsHeaders) ∧
    (∀ (e : Env) (o : Option Str) (nm : Str) (t : Option Str) (tts : TTSOutcome),
       generateVoiceHandler e o (.other nm) t tts =
         ([], ⟨405, secureCorsHeaders e o, .errJson msgMethodNotAllowed none⟩)) ∧
    (∀ (e : Env) (o : Option Str) (nm : Str) (t : Option Str) (gen : GenOutcome),
       processTextHandler e o (.other nm) t gen =
         ([], ⟨405, secureCorsHeaders e o, .errJson msgMethodNotAllowed none⟩)) ∧
    (∀ (e : Env) (o : Option Str) (nm : Str) (i : Option Str) (ex gen : GenOutcome),
       extractAndProcessHandler e o (.other nm) i ex gen =
         ([], ⟨405, secureCorsHeaders e o, .errJson msgMethodNotAllowed none⟩)) ∧
    (∀ (e : Env) (nm : Str) (t : Option Str) (gen : GenOutcome) (tts : TTSOutcome)
       (stk : Str),
       generateJsHandler e (.other nm) t gen tts stk =
         ([], ⟨405, openCorsHeaders, .errJson msgMethodNotAllowed none⟩)) := by
  refine ⟨fun _ _ _ _ => rfl, fun _ _ _ _ => rfl, fun _ _ _ _ _ => rfl,
    fun _ _ _ _ _ => rfl, ?_, by decide, fun _ _ _ _ _ => rfl, fun _ _ _ _ _ => rfl,
    fun _ _ _ _ _ _ => rfl, fun _ _ _ _ _ _ => rfl⟩
  intro e o
  simp [secureCorsHeaders]

def c10ExtractedText : Str := '<' :: '\n' :: List.replicate 2001 'a'

/-- C10: on a successful extract-and-process request the `extractedText`
response field is the RAW upstream extraction result — it may contain
special characters, line breaks and more than 2000 characters — while only
its sanitized copy is embedded into the narrative prompt. -/
theorem c10_raw_extracted_text_in_response :
    (∀ (em i et story : Str), i ≠ [] → jsTrim et ≠ [] →
       extractAndProcessCore em (some i) (.success et) (.success story) =
         ([ExtCall.genVision em visionPrompt (base64ToGeminiFormat i).data
             (base64ToGeminiFormat i).mimeType,
           ExtCall.genText gemini20Flash (promptImageIdea (sanitizeInput (.str et)))],
          200, .extractJson et story)) ∧
    (jsTrim c10ExtractedText ≠ [] ∧ '<' ∈ c10ExtractedText ∧
     Char.ofNat 10 ∈ c10ExtractedText ∧ 2000 < c10ExtractedText.length ∧
     (extractAndProcessCore gemini15Pro (some (strL "img")) (.success c10ExtractedText)
        (.success (strL "story"))).2.2 = .extractJson c10ExtractedText (strL "story") ∧
     sanitizeInput (.str c10ExtractedText) ≠ c10ExtractedText) := by
  have hmain : ∀ (em i et story : Str), i ≠ [] → jsTrim et ≠ [] →
      extractAndProcessCore em (some i) (.success et) (.success story) =
        ([ExtCall.genVision em visionPrompt (base64ToGeminiFormat i).data
            (base64ToGeminiFormat i).mimeType,
          ExtCall.genText gemini20Flash (promptImageIdea (sanitizeInput (.str et)))],
         200, .extractJson et story) := by
    intro em i et story hi het
    simp [extractAndProcessCore, hi, het]
  have htrim : jsTrim c10ExtractedText = c10ExtractedText := by
    have hh : c10ExtractedText.head?.any isJsWs = false := by
      rw [show c10ExtractedText.head? = some '<' from rfl]
      decide
    have hr : c10ExtractedText.reverse.head? = some 'a' := by
      unfold c10ExtractedText
      rw [show ('<' :: '\n' :: List.replicate 2001 'a') =
        ['<', '\n'] ++ List.replicate 2001 'a' from rfl]
      rw [List.reverse_append, List.reverse_replicate]
      exact headRepAppend (by norm_num)
    exact jsTrim_eq_self hh (by rw [hr]; decide)
  have hne : jsTrim c10ExtractedText ≠ [] := by
    rw [htrim]
    unfold c10ExtractedText
    exact List.cons_ne_nil _ _
  have hlen : 2000 < c10ExtractedText.length := by
    unfold c10ExtractedText
    simp [List.length_replicate]
  refine ⟨hmain, hne, ?_, ?_, hlen, ?_, ?_⟩
  · unfold c10ExtractedText
    exact List.mem_cons_self _ _
  · unfold c10ExtractedText
    rw [show Char.ofNat 10 = '\n' from rfl]
    exact List.mem_cons_of_mem _ (List.mem_cons_self _ _)
  · rw [hmain gemini15Pro (strL "img") c10ExtractedText (strL "story") (by decide) hne]
  · intro hcontra
    have h1 := sanitizeInput_length (.str c10ExtractedText)
    rw [hcontra] at h1
    omega

theorem c10_raw_extracted_text_witness :
    extractAndProcessCore gemini15Pro (some (strL "img")) (.success (strL "note"))
        (.success (strL "story")) =
      ([ExtCall.genVision gemini15Pro visionPrompt
          (base64ToGeminiFormat (strL "img")).data
          (base64ToGeminiFormat (strL "img")).mimeType,
        ExtCall.genText gemini20Flash
          (promptImageIdea (sanitizeInput (.str (strL "note"))))],
       200, .extractJson (strL "note") (strL "story")) :=
  c10_raw_extracted_text_in_response.1 gemini15Pro (strL "img") (strL "note")
    (strL "story") (by decide) (by decide)
